import Mathlib

/-
Shallow embedding of `src/rich/bar_chart.py` (the `BarChart` renderable).

Modelling conventions:
* Python numbers (`int` / `float`) are modelled by `PyVal`; `float` values are
  modelled as exact rationals `ℚ` (the layout algorithm is specified in exact
  arithmetic).
* Python `int(x)` on a float truncates toward zero: `pyTrunc`.
* Python `//` and `%` on integers are floor division and floor modulus:
  `Int.fdiv` / `Int.fmod`.
* Python `s * n` on strings yields `""` for `n ≤ 0`: `pyRepeat`.
* Fallible construction is `Except PyError`.
* Rendered output is modelled as the list of per-line strings obtained by
  concatenating the text of the emitted segments of each line (styles are
  resolved by an external collaborator and carry no text).
-/

/-- A Python numeric value: either an `int` or a `float` (modelled as `ℚ`). -/
inductive PyVal where
  | int : Int → PyVal
  | float : ℚ → PyVal
deriving DecidableEq

/-- Numeric value of a `PyVal`. -/
def PyVal.toRat : PyVal → ℚ
  | .int n => (n : ℚ)
  | .float q => q

/-- `isinstance(value, float)`. -/
def PyVal.isFloat : PyVal → Bool
  | .int _ => false
  | .float _ => true

/-- An element of a Python sequence passed as chart data: either a
`(label, value)` tuple or a bare numeric value. -/
inductive PyElem where
  | pair : String → PyVal → PyElem
  | num : PyVal → PyElem
deriving DecidableEq

/-- `isinstance(elem, tuple)`. -/
def PyElem.isPair : PyElem → Bool
  | .pair _ _ => true
  | .num _ => false

/-- The element is a bare numeric value. -/
def PyElem.isNum : PyElem → Bool
  | .pair _ _ => false
  | .num _ => true

/-- The `data` argument of `BarChart.__init__`: a dict, a Python `list`, or
some other (non-list, non-dict) sequence. -/
inductive PyData where
  | dict : List (String × PyVal) → PyData
  | pylist : List PyElem → PyData
  | seq : List PyElem → PyData
deriving DecidableEq

/-- Python exceptions raised during construction. -/
inductive PyError where
  | valueError : String → PyError
  | typeError : String → PyError
deriving DecidableEq

/-- Python `float(v)`: succeeds on numbers, raises `TypeError` on a tuple. -/
def pyFloat : PyElem → Except PyError PyVal
  | .num v => .ok (.float v.toRat)
  | .pair _ _ => .error (.typeError "float() argument must be a number")

/-- The bare-value branch of the normalizer, carrying the running index:
`[(str(i), float(v)) for i, v in enumerate(data)]`. -/
def bareBranchAux : Nat → List PyElem → Except PyError (List PyElem)
  | _, [] => .ok []
  | i, e :: rest => do
      let v ← pyFloat e
      let tail ← bareBranchAux (i + 1) rest
      pure (PyElem.pair (toString i) v :: tail)

/-- The bare-value branch of the normalizer, starting at index 0. -/
def bareBranch (elems : List PyElem) : Except PyError (List PyElem) :=
  bareBranchAux 0 elems

/-- Lines 52-59 of `BarChart.__init__`: normalize `data` to the raw `self.items`
list.  A dict contributes its items; a non-empty Python list whose first
element is a tuple is stored unchanged; everything else goes through the
bare-value branch. -/
def normalizeItems : PyData → Except PyError (List PyElem)
  | .dict d => .ok (d.map fun p => PyElem.pair p.1 p.2)
  | .pylist elems =>
      match elems with
      | PyElem.pair _ _ :: _ => .ok elems
      | _ => bareBranch elems
  | .seq elems => bareBranch elems

/-- Unpacking `self.items` into `(label, value)` pairs, as done by
`values = [value for _, value in self.items]`; a non-tuple item raises
`TypeError`. -/
def toPairs : List PyElem → Except PyError (List (String × PyVal))
  | [] => .ok []
  | PyElem.pair l v :: rest => (toPairs rest).map (fun ps => (l, v) :: ps)
  | PyElem.num _ :: _ => .error (.typeError "cannot unpack non-sequence")

/-- Python `max` over a list of rationals (callers guarantee non-emptiness;
on `[]` we return `0`, a case construction never reaches). -/
def listMax : List ℚ → ℚ
  | [] => 0
  | [x] => x
  | x :: y :: rest => max x (listMax (y :: rest))

/-- Lines 74-78 of `BarChart.__init__`: the effective maximum
(`self.max_value`). -/
def effectiveMax (max_value : Option ℚ) (values : List ℚ) : ℚ :=
  let m : ℚ :=
    match max_value with
    | some m => m
    | none => listMax values
  if m ≤ 0 then 1 else m

/-- The constructed chart object (style plumbing is external and omitted:
it contributes no text to the rendered lines). -/
structure BarChart where
  items : List (String × PyVal)
  width : Option Int
  show_values : Bool
  bar_width : Int
  orientation : String
  chart_height : Option Int
  max_value : ℚ
deriving DecidableEq

/-- `BarChart.__init__`: normalize the data, reject an empty dataset, unpack
the values and fix the effective maximum. -/
def mkBarChart (data : PyData) (width : Option Int) (max_value : Option ℚ)
    (show_values : Bool) (bar_width : Int) (orientation : String)
    (chart_height : Option Int) : Except PyError BarChart := do
  let rawItems ← normalizeItems data
  if rawItems = [] then
    throw (PyError.valueError "Data cannot be empty")
  let items ← toPairs rawItems
  let values := items.map (fun p => p.2.toRat)
  pure { items := items, width := width, show_values := show_values,
         bar_width := bar_width, orientation := orientation,
         chart_height := chart_height,
         max_value := effectiveMax max_value values }

/-- Python `math`-free floor of a rational: `q.num.fdiv q.den` (equal to
`Int.floor`, proved below, but kernel-computable). -/
def pyFloor (q : ℚ) : Int := q.num.fdiv q.den

/-- Python `int(x)` on a float: truncation toward zero. -/
def pyTrunc (q : ℚ) : Int := if q < 0 then -(pyFloor (-q)) else pyFloor q

/-- Python `s * n` on a string: `n` copies, empty for `n ≤ 0`. -/
def pyRepeat (s : String) (n : Int) : String :=
  String.join (List.replicate n.toNat s)

/-- Python `s[:n]`: the first `n` characters for `n ≥ 0`, all but the last
`-n` characters for `n < 0`. -/
def pyTake (s : String) (n : Int) : String :=
  if 0 ≤ n then String.mk (s.data.take n.toNat)
  else String.mk (s.data.take (s.length - (-n).toNat))

/-- `FULL_BLOCK` from `rich/bar.py` (not under `src/`).
Modelled from the spec: "Full block: a glyph representing one fully filled
character cell of bar". -/
def FULL_BLOCK : String := "█"

/-- `END_BLOCK_ELEMENTS` from `rich/bar.py` (not under `src/`).
Modelled from the spec: the "small ordered set of glyphs representing
fractional fill within a single character cell, indexed by remainder
magnitude", with "eighth-block resolution": eight entries, index 0 being the
empty fill. -/
def END_BLOCK_ELEMENTS : List String := [" ", "▏", "▎", "▍", "▌", "▋", "▊", "▉"]

/-- Longest label length across the items
(`max(len(str(label)) for label, _ in self.items)`; items are non-empty). -/
def maxLabelLen (items : List (String × PyVal)) : Nat :=
  (items.map fun p => p.1.length).foldr max 0

/-- Lines 117-133 of `_render_horizontal`: the width available for bar
glyphs. -/
def barAreaWidth (width : Option Int) (maxWidth : Int) (max_label_len : Nat)
    (show_values : Bool) : Int :=
  let available := min (width.getD maxWidth) maxWidth
  let label_width : Int := (max_label_len : Int) + 2
  let w := available - label_width
  let w2 := if show_values then w - 12 else w
  if w2 < 1 then 1 else w2

/-- Lines 139-143 of `_render_horizontal` (and 197-202 of `_render_vertical`):
the raw bar extent `int((value / self.max_value) * bar_area_width)`. -/
def barLength (value : ℚ) (max_value : ℚ) (bar_area_width : Int) : Int :=
  if 0 < max_value then pyTrunc (value / max_value * (bar_area_width : ℚ))
  else 0

/-- Lines 149-156 of `_render_horizontal`: the bar glyph string built from the
raw extent and the bar thickness. -/
def barChars (bar_length : Int) (bar_width : Int) : String :=
  let full_blocks := bar_length.fdiv bar_width
  let remainder := bar_length.fmod bar_width
  let s := pyRepeat FULL_BLOCK full_blocks
  if 0 < remainder ∧ remainder < (END_BLOCK_ELEMENTS.length : Int) then
    s ++ END_BLOCK_ELEMENTS.getD remainder.toNat ""
  else s

/-- Banker's rounding of a rational to an integer (ties to even), used to model
Python's decimal formatting of a float value. -/
def roundHalfEven (q : ℚ) : Int :=
  let f := pyFloor q
  let frac := q - (f : ℚ)
  if frac < 1 / 2 then f
  else if 1 / 2 < frac then f + 1
  else if f.emod 2 = 0 then f else f + 1

/-- Two-digit zero-padded decimal string for `0 ≤ n < 100`. -/
def pad2 (n : Int) : String :=
  if n < 10 then "0" ++ toString n else toString n

/-- `f"{q:.2f}"` for a non-negative value: integer part, dot, two decimals. -/
def formatFixed2Nonneg (q : ℚ) : String :=
  let cents := roundHalfEven (q * 100)
  toString (cents / 100) ++ "." ++ pad2 (cents % 100)

/-- Python `f"{value:.2f}"`, modelled as exact two-decimal rounding (ties to
even) of the rational value. -/
def formatFixed2 (q : ℚ) : String :=
  if q < 0 then "-" ++ formatFixed2Nonneg (-q) else formatFixed2Nonneg q

/-- Lines 158-164 of `_render_horizontal`: the value text appended after the
bar (floats get two decimals, ints print plainly), empty when values are
hidden. -/
def valueText (show_values : Bool) (value : PyVal) : String :=
  if show_values then
    match value with
    | .float q => " " ++ formatFixed2 q
    | .int n => " " ++ toString n
  else ""

/-- `_render_horizontal`: the text of each emitted line (one per entry). -/
def renderHorizontalLines (c : BarChart) (maxWidth : Int) : List String :=
  let max_label_len := maxLabelLen c.items
  let label_width : Int := (max_label_len : Int) + 2
  let bar_area_width := barAreaWidth c.width maxWidth max_label_len c.show_values
  c.items.map fun p =>
    let bl := barLength p.2.toRat c.max_value bar_area_width
    let label_padding := pyRepeat " " (label_width - (p.1.length : Int) - 1)
    label_padding ++ p.1 ++ " " ++ barChars bl c.bar_width
      ++ valueText c.show_values p.2

/-- Lines 183-192 of `_render_vertical`: the number of bar rows.  Note
`self.chart_height or min(default_height, max_height)`: an explicit `0` is
falsy in Python and falls back to the default path. -/
def chartHeightUsed (chart_height : Option Int) (maxHeight : Int) : Int :=
  let ch : Int :=
    match chart_height with
    | some h => if h = 0 then min 10 maxHeight else h
    | none => min 10 maxHeight
  if ch < 1 then 1 else ch

/-- One bar row of the vertical chart: a full-thickness block column for every
entry whose bar height reaches this row, blank space otherwise, with a
one-space gap between columns. -/
def verticalBarRow (bar_heights : List Int) (bar_width : Int) (row : Int) :
    String :=
  String.join (List.intersperse " "
    (bar_heights.map fun h =>
      if row ≤ h then pyRepeat FULL_BLOCK bar_width
      else pyRepeat " " bar_width))

/-- One label cell of the vertical chart's label row: truncate to `bar_width`
characters if longer, else left-justify (pad right with spaces) to
`bar_width`. -/
def verticalLabelCell (bar_width : Int) (label : String) : String :=
  if bar_width < (label.length : Int) then pyTake label bar_width
  else label.pushn ' ' (bar_width.toNat - label.length)

/-- `_render_vertical`: the text of each emitted line — `chart_height` bar
rows from row `chart_height` down to row `1`, then one label row. -/
def renderVerticalLines (c : BarChart) (maxHeight : Int) : List String :=
  let chart_height := chartHeightUsed c.chart_height maxHeight
  let bar_heights :=
    c.items.map fun p => barLength p.2.toRat c.max_value chart_height
  let barRows := (List.range chart_height.toNat).map fun (i : Nat) =>
    verticalBarRow bar_heights c.bar_width (chart_height - (i : Int))
  let labelRow := String.join (List.intersperse " "
    (c.items.map fun p => verticalLabelCell c.bar_width p.1))
  barRows ++ [labelRow]

/-- `pyFloor` agrees with the mathematical floor. -/
theorem pyFloor_eq_floor (q : ℚ) : pyFloor q = ⌊q⌋ := by
  rw [Rat.floor_def]
  exact Int.fdiv_eq_ediv q.num (by positivity)

/-- On non-negative rationals, Python truncation is the floor. -/
theorem pyTrunc_of_nonneg {q : ℚ} (h : 0 ≤ q) : pyTrunc q = ⌊q⌋ := by
  rw [pyTrunc, if_neg (not_lt.mpr h), pyFloor_eq_floor]

/-- Python truncation of a non-positive rational is non-positive. -/
theorem pyTrunc_nonpos {q : ℚ} (h : q ≤ 0) : pyTrunc q ≤ 0 := by
  unfold pyTrunc
  split_ifs with hneg
  · have h0 : (0 : Int) ≤ ⌊-q⌋ := Int.floor_nonneg.mpr (by linarith)
    rw [pyFloor_eq_floor]
    omega
  · rw [pyFloor_eq_floor]
    exact Int.floor_nonpos h

/-- Python truncation toward zero is monotone. -/
theorem pyTrunc_mono {a b : ℚ} (h : a ≤ b) : pyTrunc a ≤ pyTrunc b := by
  unfold pyTrunc
  split_ifs with ha hb hb
  · have : ⌊-b⌋ ≤ ⌊-a⌋ := Int.floor_mono (by linarith)
    rw [pyFloor_eq_floor, pyFloor_eq_floor]
    omega
  · have h1 : (0 : Int) ≤ ⌊-a⌋ := Int.floor_nonneg.mpr (by linarith)
    have h2 : (0 : Int) ≤ ⌊b⌋ := Int.floor_nonneg.mpr (by linarith)
    rw [pyFloor_eq_floor, pyFloor_eq_floor]
    omega
  · exact absurd (lt_of_le_of_lt h hb) ha
  · rw [pyFloor_eq_floor, pyFloor_eq_floor]
    exact Int.floor_mono h

/-- For a threshold of at least 1, truncation and floor reach it together. -/
theorem pyTrunc_ge_iff {q : ℚ} {r : Int} (hr : 1 ≤ r) :
    r ≤ pyTrunc q ↔ r ≤ ⌊q⌋ := by
  unfold pyTrunc
  split_ifs with hneg
  · have h0 : (0 : Int) ≤ ⌊-q⌋ := Int.floor_nonneg.mpr (by linarith)
    have h1 : ⌊q⌋ ≤ 0 := Int.floor_nonpos hneg.le
    rw [pyFloor_eq_floor]
    omega
  · rw [pyFloor_eq_floor]

/-- `pyRepeat` of a non-positive count is empty. -/
theorem pyRepeat_of_nonpos {s : String} {n : Int} (h : n ≤ 0) :
    pyRepeat s n = "" := by
  rw [pyRepeat, Int.toNat_of_nonpos h]
  rfl

/-- C2: in horizontal rendering the bar-area width equals
min(configured width if set else container max width, container max width)
minus (max label length + 2), minus 12 exactly when values are shown,
floored at 1. -/
theorem bar_area_width_formula (width : Option Int) (maxWidth : Int)
    (max_label_len : Nat) (show_values : Bool) :
    barAreaWidth width maxWidth max_label_len show_values =
      max 1 (min (width.getD maxWidth) maxWidth - ((max_label_len : Int) + 2)
        - (if show_values then 12 else 0)) := by
  unfold barAreaWidth
  cases show_values <;> simp <;> omega

/-- C8: with the configuration fixed, the raw bar extent is a non-decreasing
function of the entry's value. -/
theorem bar_extent_monotone (v1 v2 M : ℚ) (W : Int) (hM : 0 < M) (hW : 0 ≤ W)
    (h : v1 ≤ v2) : barLength v1 M W ≤ barLength v2 M W := by
  unfold barLength
  rw [if_pos hM, if_pos hM]
  apply pyTrunc_mono
  have hW2 : (0 : ℚ) ≤ (W : ℚ) := by exact_mod_cast hW
  have hdiv : v1 / M ≤ v2 / M := div_le_div_of_nonneg_right h hM.le
  exact mul_le_mul_of_nonneg_right hdiv hW2

/-- Witness for `bar_extent_monotone`. -/
theorem bar_extent_monotone_witness : barLength 1 2 13 ≤ barLength 3 2 13 :=
  bar_extent_monotone 1 3 2 13 (by norm_num) (by norm_num) (by norm_num)

/-- C7 (counterexample): an explicitly supplied chart height of 0 does not
yield max(0, 1) = 1 rows; Python's `or` treats 0 as unset and the default
path min(10, container height) applies. -/
theorem chart_height_zero_cex :
    ¬ (chartHeightUsed (some 0) 10 = max (0 : Int) 1) := by decide

/-- C7 (amended): a non-zero explicit chart height h yields max(h, 1) rows;
an explicit 0 is falsy and treated as unset; with no explicit height the
chart uses max(min(10, container-reported height), 1) rows. -/
theorem chart_height_rows (h maxHeight : Int) :
    (h ≠ 0 → chartHeightUsed (some h) maxHeight = max h 1) ∧
    chartHeightUsed none maxHeight = max (min 10 maxHeight) 1 ∧
    chartHeightUsed (some 0) maxHeight = max (min 10 maxHeight) 1 := by
  refine ⟨fun hne => ?_, ?_, ?_⟩ <;>
    · simp only [chartHeightUsed]
      split_ifs <;> omega

/-- Witness for `chart_height_rows`. -/
theorem chart_height_rows_witness :
    chartHeightUsed (some 5) 7 = max (5 : Int) 1 ∧
    chartHeightUsed none 7 = max (min 10 7) 1 :=
  ⟨(chart_height_rows 5 7).1 (by decide), (chart_height_rows 5 7).2.1⟩

/-- Reduction of `Except` bind on a success value. -/
theorem except_ok_bind {α β : Type} (a : α) (f : α → Except PyError β) :
    (Except.ok a >>= f) = f a := rfl

/-- Reduction of `Except` bind after a `throw`. -/
theorem except_throw_bind {α : Type} (e : PyError)
    (f : PUnit → Except PyError α) :
    ((throw e : Except PyError PUnit) >>= f) = Except.error e := rfl

/-- Reduction of `Except` bind after a no-op. -/
theorem except_unit_bind {α : Type} (f : PUnit → Except PyError α) :
    ((pure PUnit.unit : Except PyError PUnit) >>= f) = f PUnit.unit := rfl

/-- `mkBarChart` propagates a normalizer error. -/
theorem mkBarChart_norm_error {data : PyData} {e : PyError}
    (w : Option Int) (mv : Option ℚ) (sv : Bool) (bw : Int) (o : String)
    (ch : Option Int) (hn : normalizeItems data = .error e) :
    mkBarChart data w mv sv bw o ch = .error e := by
  unfold mkBarChart
  rw [hn]
  rfl

/-- `mkBarChart` rejects an empty normalized dataset. -/
theorem mkBarChart_empty {data : PyData}
    (w : Option Int) (mv : Option ℚ) (sv : Bool) (bw : Int) (o : String)
    (ch : Option Int) (hn : normalizeItems data = .ok []) :
    mkBarChart data w mv sv bw o ch =
      .error (.valueError "Data cannot be empty") := by
  unfold mkBarChart
  rw [hn, except_ok_bind, if_pos rfl]
  rfl

/-- `mkBarChart` propagates an unpacking error on a non-empty dataset. -/
theorem mkBarChart_unpack_error {data : PyData} {raw : List PyElem}
    {e : PyError} (w : Option Int) (mv : Option ℚ) (sv : Bool) (bw : Int)
    (o : String) (ch : Option Int) (hn : normalizeItems data = .ok raw)
    (hraw : raw ≠ []) (htp : toPairs raw = .error e) :
    mkBarChart data w mv sv bw o ch = .error e := by
  unfold mkBarChart
  rw [hn, except_ok_bind, if_neg hraw, except_unit_bind, htp]
  rfl

/-- `mkBarChart` succeeds on a non-empty dataset that unpacks into pairs,
and the constructed chart carries the effective maximum. -/
theorem mkBarChart_ok {data : PyData} {raw : List PyElem}
    {items : List (String × PyVal)} (w : Option Int) (mv : Option ℚ)
    (sv : Bool) (bw : Int) (o : String) (ch : Option Int)
    (hn : normalizeItems data = .ok raw) (hraw : raw ≠ [])
    (htp : toPairs raw = .ok items) :
    mkBarChart data w mv sv bw o ch =
      .ok { items := items, width := w, show_values := sv, bar_width := bw,
            orientation := o, chart_height := ch,
            max_value := effectiveMax mv (items.map fun p => p.2.toRat) } := by
  unfold mkBarChart
  rw [hn, except_ok_bind, if_neg hraw, except_unit_bind, htp]
  rfl

/-- A non-positive explicit maximum is coerced to 1. -/
theorem effectiveMax_some_nonpos {m : ℚ} (hm : m ≤ 0) (vs : List ℚ) :
    effectiveMax (some m) vs = 1 := by
  unfold effectiveMax
  simp [hm]

/-- An explicit maximum of 1 stays 1. -/
theorem effectiveMax_some_one (vs : List ℚ) : effectiveMax (some 1) vs = 1 := by
  unfold effectiveMax
  norm_num

/-- The effective maximum is always strictly positive. -/
theorem effectiveMax_pos (mv : Option ℚ) (vs : List ℚ) :
    0 < effectiveMax mv vs := by
  cases mv with
  | none =>
      show 0 < if listMax vs ≤ 0 then 1 else listMax vs
      split_ifs with h
      · norm_num
      · linarith
  | some a =>
      show 0 < if a ≤ 0 then 1 else a
      split_ifs with h
      · norm_num
      · linarith

/-- C5: the effective maximum is the supplied maximum if given, else the data
maximum, coerced to 1 when non-positive; a chart built with a non-positive
supplied maximum is the same chart object as one built with maximum 1.0 (so
it renders identically), and a non-positive derived maximum also yields
effective maximum 1. -/
theorem effective_max_coercion (data : PyData) (w : Option Int) (sv : Bool)
    (bw : Int) (o : String) (ch : Option Int) (m : ℚ) (hm : m ≤ 0)
    (mv : Option ℚ) (vs : List ℚ) (hraw : mv.getD (listMax vs) ≤ 0) :
    mkBarChart data w (some m) sv bw o ch =
      mkBarChart data w (some 1) sv bw o ch ∧
    effectiveMax mv vs = 1 ∧ effectiveMax (some 1) vs = 1 := by
  refine ⟨?_, ?_, effectiveMax_some_one vs⟩
  · cases hn : normalizeItems data with
    | error e =>
        rw [mkBarChart_norm_error w (some m) sv bw o ch hn,
          mkBarChart_norm_error w (some 1) sv bw o ch hn]
    | ok raw =>
        by_cases hraw2 : raw = []
        · subst hraw2
          rw [mkBarChart_empty w (some m) sv bw o ch hn,
            mkBarChart_empty w (some 1) sv bw o ch hn]
        · cases htp : toPairs raw with
          | error e =>
              rw [mkBarChart_unpack_error w (some m) sv bw o ch hn hraw2 htp,
                mkBarChart_unpack_error w (some 1) sv bw o ch hn hraw2 htp]
          | ok items =>
              rw [mkBarChart_ok w (some m) sv bw o ch hn hraw2 htp,
                mkBarChart_ok w (some 1) sv bw o ch hn hraw2 htp,
                effectiveMax_some_nonpos hm, effectiveMax_some_one]
  · unfold effectiveMax
    cases mv with
    | none =>
        simp only [Option.getD_none] at hraw
        simp [hraw]
    | some a =>
        simp only [Option.getD_some] at hraw
        simp [hraw]

/-- Witness for `effective_max_coercion`. -/
theorem effective_max_coercion_witness :
    mkBarChart (.dict [("a", .int 1)]) none (some (-2)) true 1 "horizontal"
        none =
      mkBarChart (.dict [("a", .int 1)]) none (some 1) true 1 "horizontal"
        none ∧
    effectiveMax (some (-2)) [1] = 1 ∧ effectiveMax (some 1) [1] = 1 :=
  effective_max_coercion (.dict [("a", .int 1)]) none true 1 "horizontal"
    none (-2) (by norm_num) (some (-2)) [1] (by norm_num)

/-- The claim-side description of the bare-value branch: stringified-index
labels with float-converted values, starting at index `i`. -/
def bareExpected : Nat → List PyVal → List PyElem
  | _, [] => []
  | i, v :: rest =>
      PyElem.pair (toString i) (PyVal.float v.toRat) :: bareExpected (i + 1) rest

/-- On bare numeric elements the bare-value branch succeeds and produces
exactly the stringified-index/float pairs. -/
theorem bareBranchAux_map_num (i : Nat) (vs : List PyVal) :
    bareBranchAux i (vs.map PyElem.num) = .ok (bareExpected i vs) := by
  induction vs generalizing i with
  | nil => rfl
  | cons v rest ih =>
      show bareBranchAux i (PyElem.num v :: rest.map PyElem.num) = _
      unfold bareBranchAux
      rw [show pyFloat (PyElem.num v) = .ok (.float v.toRat) from rfl,
        except_ok_bind, ih]
      rfl

/-- Every element produced by the bare-value branch is a label/float pair. -/
theorem bareExpected_all_pairs (i : Nat) (vs : List PyVal) :
    ∀ it ∈ bareExpected i vs, ∃ l q, it = PyElem.pair l (PyVal.float q) := by
  induction vs generalizing i with
  | nil => simp [bareExpected]
  | cons v rest ih =>
      simp only [bareExpected, List.mem_cons]
      rintro it (rfl | hmem)
      · exact ⟨_, _, rfl⟩
      · exact ih (i + 1) it hmem

/-- Unpacking succeeds on a list of pairs, and preserves emptiness. -/
theorem toPairs_of_pairs (l : List PyElem) (h : ∀ e ∈ l, e.isPair = true) :
    ∃ ps, toPairs l = .ok ps ∧ (ps = [] ↔ l = []) := by
  induction l with
  | nil => exact ⟨[], rfl, by simp⟩
  | cons e rest ih =>
      cases e with
      | pair a b =>
          obtain ⟨ps, hps, _⟩ := ih fun x hx => h x (List.mem_cons_of_mem _ hx)
          refine ⟨(a, b) :: ps, ?_, by simp⟩
          show (toPairs rest).map (fun ps => (a, b) :: ps) = _
          rw [hps]
          rfl
      | num v =>
          exact absurd (h _ (List.mem_cons_self _ _)) (by simp [PyElem.isPair])

/-- A list of bare numeric elements is the image of its values. -/
theorem all_num_eq_map (l : List PyElem) (h : ∀ e ∈ l, e.isNum = true) :
    ∃ vs : List PyVal, l = vs.map PyElem.num := by
  induction l with
  | nil => exact ⟨[], rfl⟩
  | cons e rest ih =>
      cases e with
      | num v =>
          obtain ⟨vs, hvs⟩ := ih fun x hx => h x (List.mem_cons_of_mem _ hx)
          exact ⟨v :: vs, by simp [hvs]⟩
      | pair a b =>
          exact absurd (h _ (List.mem_cons_self _ _)) (by simp [PyElem.isNum])

/-- The three input shapes of the claims: a mapping, a pair list, or a bare
value sequence. -/
def PyData.wellFormed : PyData → Prop
  | .dict _ => True
  | .pylist elems =>
      (∀ e ∈ elems, e.isPair = true) ∨ (∀ e ∈ elems, e.isNum = true)
  | .seq elems => ∀ e ∈ elems, e.isNum = true

/-- For well-formed data, normalization succeeds with all items pairs. -/
theorem normalizeItems_wf (data : PyData) (hwf : data.wellFormed) :
    ∃ items, normalizeItems data = .ok items ∧
      ∀ e ∈ items, e.isPair = true := by
  cases data with
  | dict d =>
      refine ⟨_, rfl, ?_⟩
      intro e he
      obtain ⟨p, _, rfl⟩ := List.mem_map.mp he
      rfl
  | pylist elems =>
      rcases hwf with hp | hn
      · cases elems with
        | nil => exact ⟨[], rfl, by simp⟩
        | cons e rest =>
            cases e with
            | pair a b => exact ⟨PyElem.pair a b :: rest, rfl, hp⟩
            | num v =>
                exact absurd (hp _ (List.mem_cons_self _ _))
                  (by simp [PyElem.isPair])
      · obtain ⟨vs, rfl⟩ := all_num_eq_map elems hn
        refine ⟨bareExpected 0 vs, ?_, ?_⟩
        · cases vs with
          | nil => rfl
          | cons v rest =>
              show bareBranch ((v :: rest).map PyElem.num) = _
              rw [bareBranch, bareBranchAux_map_num]
        · intro e he
          obtain ⟨l, q, rfl⟩ := bareExpected_all_pairs 0 vs e he
          rfl
  | seq elems =>
      obtain ⟨vs, rfl⟩ := all_num_eq_map elems hwf
      refine ⟨bareExpected 0 vs, ?_, ?_⟩
      · show bareBranch (vs.map PyElem.num) = _
        rw [bareBranch, bareBranchAux_map_num]
      · intro e he
        obtain ⟨l, q, rfl⟩ := bareExpected_all_pairs 0 vs e he
        rfl

/-- C1: for every well-formed input (mapping, pair list, or bare value
sequence), construction succeeds exactly when the normalized dataset is
non-empty; an empty normalized dataset raises the validation error and no
chart is produced. -/
theorem construction_ok_iff_entries_nonempty (data : PyData) (w : Option Int)
    (mv : Option ℚ) (sv : Bool) (bw : Int) (o : String) (ch : Option Int)
    (hwf : data.wellFormed) :
    ∃ items, normalizeItems data = .ok items ∧
      (items ≠ [] → ∃ c, mkBarChart data w mv sv bw o ch = .ok c) ∧
      (items = [] → mkBarChart data w mv sv bw o ch =
        .error (.valueError "Data cannot be empty")) := by
  obtain ⟨items, hn, hall⟩ := normalizeItems_wf data hwf
  refine ⟨items, hn, fun hne => ?_, fun he => ?_⟩
  · obtain ⟨ps, hps, _⟩ := toPairs_of_pairs items hall
    exact ⟨_, mkBarChart_ok w mv sv bw o ch hn hne hps⟩
  · subst he
    exact mkBarChart_empty w mv sv bw o ch hn

/-- Witness for `construction_ok_iff_entries_nonempty`. -/
theorem construction_ok_iff_entries_nonempty_witness :
    ∃ items,
      normalizeItems (.dict [("a", .int 1)]) = .ok items ∧
      (items ≠ [] →
        ∃ c, mkBarChart (.dict [("a", .int 1)]) none none true 1 "horizontal"
          none = .ok c) ∧
      (items = [] →
        mkBarChart (.dict [("a", .int 1)]) none none true 1 "horizontal"
          none = .error (.valueError "Data cannot be empty")) :=
  construction_ok_iff_entries_nonempty (.dict [("a", .int 1)]) none none true
    1 "horizontal" none trivial

/-- The bar string as described by claim C3: raw extent computed with the
mathematical floor of (value / effective-maximum) × bar-area-width, divided
by the bar thickness into full blocks plus a remainder that selects a
partial-block glyph exactly when it is positive and strictly inside the
glyph set's index range. -/
def claimedBarString (value max_value : ℚ) (bar_area_width bar_width : Int) :
    String :=
  let raw := pyFloor (value / max_value * (bar_area_width : ℚ))
  let full_blocks := raw.fdiv bar_width
  let remainder := raw.fmod bar_width
  let s := pyRepeat FULL_BLOCK full_blocks
  if 0 < remainder ∧ remainder < (END_BLOCK_ELEMENTS.length : Int) then
    s ++ END_BLOCK_ELEMENTS.getD remainder.toNat ""
  else s

/-- C3 (counterexample): at value −1, maximum 2, bar-area width 3 and
bar thickness 2 the rendered bar is "▏" while the floor-based description
renders no glyph: the code truncates toward zero instead of flooring. -/
theorem bar_string_floor_claim_cex :
    ¬ (barChars (barLength (-1) 2 3) 2 = claimedBarString (-1) 2 3 2) := by
  have hbl : barLength (-1) 2 3 = -1 := by
    unfold barLength pyTrunc
    simp only [pyFloor_eq_floor]
    norm_num
  have hraw : pyFloor ((-1 : ℚ) / 2 * ((3 : Int) : ℚ)) = -2 := by
    rw [pyFloor_eq_floor]
    norm_num
  intro h
  rw [hbl] at h
  unfold claimedBarString at h
  rw [hraw] at h
  exact absurd h (by decide)

/-- C3 (amended): for entries with non-negative value the bar string is
exactly as claimed: floor-extent // bar_width full blocks, plus the
partial-block glyph indexed by the remainder when that remainder is positive
and strictly inside the glyph set's range. -/
theorem bar_string_of_nonneg_value (value max_value : ℚ)
    (bar_area_width bar_width : Int) (hv : 0 ≤ value) (hM : 0 < max_value)
    (hW : 0 ≤ bar_area_width) :
    barChars (barLength value max_value bar_area_width) bar_width =
      claimedBarString value max_value bar_area_width bar_width := by
  have hq : 0 ≤ value / max_value * (bar_area_width : ℚ) := by positivity
  have h1 : barLength value max_value bar_area_width
      = pyFloor (value / max_value * (bar_area_width : ℚ)) := by
    unfold barLength pyTrunc
    rw [if_pos hM, if_neg (not_lt.mpr hq)]
  rw [h1]
  rfl

/-- Witness for `bar_string_of_nonneg_value`. -/
theorem bar_string_of_nonneg_value_witness :
    barChars (barLength 1 2 3) 2 = claimedBarString 1 2 3 2 :=
  bar_string_of_nonneg_value 1 2 3 2 (by norm_num) (by norm_num) (by norm_num)

/-- C4 (counterexample): at value −1 ≤ 0, maximum 2, bar-area width 2 and
bar thickness 2 the rendered bar is "▏", not empty: the truncated extent −1
has Python remainder −1 % 2 = 1, which selects a partial glyph. -/
theorem nonpositive_value_empty_bar_cex :
    ¬ (barChars (barLength (-1) 2 2) 2 = "") := by
  have hbl : barLength (-1) 2 2 = -1 := by
    unfold barLength pyTrunc
    simp only [pyFloor_eq_floor]
    norm_num
  rw [hbl]
  decide

/-- C4 (amended): for value ≤ 0 the bar never contains a full block (the
full-block count is non-positive), and the whole bar string is empty whenever
additionally the bar thickness is 1 or the value is 0; with thickness ≥ 2 a
negative value can still leave a partial glyph via the floor-mod remainder. -/
theorem nonpositive_value_bar_blocks (value max_value : ℚ)
    (bar_area_width bar_width : Int) (hv : value ≤ 0) (hM : 0 < max_value)
    (hW : 0 ≤ bar_area_width) (hbw : 1 ≤ bar_width) :
    (barLength value max_value bar_area_width).fdiv bar_width ≤ 0 ∧
    barChars (barLength value max_value bar_area_width) bar_width =
      (if 0 < (barLength value max_value bar_area_width).fmod bar_width ∧
          (barLength value max_value bar_area_width).fmod bar_width <
            (END_BLOCK_ELEMENTS.length : Int) then
        END_BLOCK_ELEMENTS.getD
          ((barLength value max_value bar_area_width).fmod bar_width).toNat ""
      else "") ∧
    ((bar_width = 1 ∨ value = 0) →
      barChars (barLength value max_value bar_area_width) bar_width = "") := by
  have hW2 : (0 : ℚ) ≤ (bar_area_width : ℚ) := by exact_mod_cast hW
  have hdiv : value / max_value ≤ 0 :=
    div_nonpos_of_nonpos_of_nonneg hv hM.le
  have hE : value / max_value * (bar_area_width : ℚ) ≤ 0 :=
    mul_nonpos_of_nonpos_of_nonneg hdiv hW2
  have hbl : barLength value max_value bar_area_width ≤ 0 := by
    unfold barLength
    rw [if_pos hM]
    exact pyTrunc_nonpos hE
  have hfd : (barLength value max_value bar_area_width).fdiv bar_width ≤ 0 := by
    rw [Int.fdiv_eq_ediv _ (by omega)]
    calc (barLength value max_value bar_area_width) / bar_width
        ≤ 0 / bar_width := Int.ediv_le_ediv (by omega) hbl
      _ = 0 := Int.zero_ediv bar_width
  refine ⟨hfd, ?_, ?_⟩
  · unfold barChars
    simp only [pyRepeat_of_nonpos hfd]
    split_ifs <;> rfl
  · rintro (rfl | rfl)
    · unfold barChars
      simp only [Int.fmod_one, pyRepeat_of_nonpos hfd]
      norm_num
    · have hbl0 : barLength 0 max_value bar_area_width = 0 := by
        unfold barLength pyTrunc
        rw [if_pos hM, zero_div, zero_mul, if_neg (lt_irrefl (0 : ℚ)),
          pyFloor_eq_floor]
        exact Int.floor_zero
      rw [hbl0]
      unfold barChars
      simp only [Int.zero_fdiv, Int.zero_fmod]
      norm_num
      rfl

/-- Witness for `nonpositive_value_bar_blocks`. -/
theorem nonpositive_value_bar_blocks_witness :
    (barLength (-1) 2 2).fdiv 2 ≤ 0 ∧
    barChars (barLength (-1) 2 2) 2 =
      (if 0 < (barLength (-1) 2 2).fmod 2 ∧
          (barLength (-1) 2 2).fmod 2 < (END_BLOCK_ELEMENTS.length : Int) then
        END_BLOCK_ELEMENTS.getD ((barLength (-1) 2 2).fmod 2).toNat ""
      else "") ∧
    (((2 : Int) = 1 ∨ (-1 : ℚ) = 0) → barChars (barLength (-1) 2 2) 2 = "") :=
  nonpositive_value_bar_blocks (-1) 2 2 2 (by norm_num) (by norm_num)
    (by norm_num) (by norm_num)

/-- The chart always uses at least one bar row. -/
theorem chartHeightUsed_pos (ch : Option Int) (mh : Int) :
    1 ≤ chartHeightUsed ch mh := by
  cases ch <;> simp only [chartHeightUsed] <;> split_ifs <;> omega

/-- The vertical output as described by claim C6: for row index r from H down
to 1 each entry contributes bar_width full blocks when
floor((value / effective-maximum) × H) ≥ r and bar_width spaces otherwise,
columns one space apart; then one label row with each label truncated to
bar_width characters if longer, right-padded with spaces to bar_width if
shorter. -/
def claimedVerticalLines (c : BarChart) (maxHeight : Int) : List String :=
  let H := chartHeightUsed c.chart_height maxHeight
  let barRows := (List.range H.toNat).map fun (i : Nat) =>
    String.join (List.intersperse " "
      (c.items.map fun p =>
        if H - (i : Int) ≤ pyFloor (p.2.toRat / c.max_value * (H : ℚ)) then
          pyRepeat FULL_BLOCK c.bar_width
        else pyRepeat " " c.bar_width))
  let labelRow := String.join (List.intersperse " "
    (c.items.map fun p =>
      if c.bar_width < (p.1.length : Int) then
        String.mk (p.1.data.take c.bar_width.toNat)
      else p.1.pushn ' ' (c.bar_width.toNat - p.1.length)))
  barRows ++ [labelRow]

/-- C6: for every chart with positive effective maximum and non-negative bar
thickness, the vertical rendering is exactly H bar rows for r = H down to 1
(full column iff the floor-scaled bar height reaches r, one-space gaps)
followed by exactly one label row (labels truncated or right-padded to
bar_width), so the output has H + 1 lines. -/
theorem vertical_render_rows (c : BarChart) (maxHeight : Int)
    (hM : 0 < c.max_value) (hbw : 0 ≤ c.bar_width) :
    renderVerticalLines c maxHeight = claimedVerticalLines c maxHeight ∧
    (renderVerticalLines c maxHeight).length =
      (chartHeightUsed c.chart_height maxHeight).toNat + 1 := by
  have hH : 1 ≤ chartHeightUsed c.chart_height maxHeight :=
    chartHeightUsed_pos c.chart_height maxHeight
  constructor
  · unfold renderVerticalLines claimedVerticalLines
    refine congrArg₂ (· ++ ·) ?_ ?_
    · apply List.map_congr_left
      intro i hi
      have hiH : i < (chartHeightUsed c.chart_height maxHeight).toNat :=
        List.mem_range.mp hi
      have hr : 1 ≤ chartHeightUsed c.chart_height maxHeight - (i : Int) := by
        omega
      unfold verticalBarRow
      refine congrArg String.join (congrArg (List.intersperse " ") ?_)
      rw [List.map_map]
      apply List.map_congr_left
      intro p hp
      show (if chartHeightUsed c.chart_height maxHeight - (i : Int) ≤
          barLength p.2.toRat c.max_value
            (chartHeightUsed c.chart_height maxHeight) then
          pyRepeat FULL_BLOCK c.bar_width else pyRepeat " " c.bar_width) = _
      refine if_congr ?_ rfl rfl
      unfold barLength
      rw [if_pos hM, pyFloor_eq_floor]
      exact pyTrunc_ge_iff hr
    · refine congrArg (fun x => [x]) (congrArg String.join
        (congrArg (List.intersperse " ") ?_))
      apply List.map_congr_left
      intro p hp
      unfold verticalLabelCell pyTake
      split_ifs with h1
      · rfl
      · rfl
  · simp only [renderVerticalLines]
    rw [List.length_append, List.length_map, List.length_range]
    rfl

/-- Witness for `vertical_render_rows`. -/
theorem vertical_render_rows_witness :
    renderVerticalLines
        { items := [("0", .float 1), ("1", .float 2), ("2", .float 3)],
          width := none, show_values := true, bar_width := 1,
          orientation := "vertical", chart_height := some 3, max_value := 3 }
        100 =
      claimedVerticalLines
        { items := [("0", .float 1), ("1", .float 2), ("2", .float 3)],
          width := none, show_values := true, bar_width := 1,
          orientation := "vertical", chart_height := some 3, max_value := 3 }
        100 ∧
    (renderVerticalLines
        { items := [("0", .float 1), ("1", .float 2), ("2", .float 3)],
          width := none, show_values := true, bar_width := 1,
          orientation := "vertical", chart_height := some 3, max_value := 3 }
        100).length =
      (chartHeightUsed (some 3) 100).toNat + 1 :=
  vertical_render_rows _ 100 (by norm_num) (by norm_num)

/-- Rounding an integer is the identity. -/
theorem roundHalfEven_intCast (k : Int) : roundHalfEven (k : ℚ) = k := by
  unfold roundHalfEven
  rw [pyFloor_eq_floor, Int.floor_intCast]
  norm_num

/-- Two-decimal formatting of an integral non-negative-branch value. -/
theorem formatFixed2Nonneg_intCast (k : Int) :
    formatFixed2Nonneg (k : ℚ) = toString k ++ ".00" := by
  have h1 : ((k : ℚ) * 100) = ((k * 100 : Int) : ℚ) := by push_cast; ring
  unfold formatFixed2Nonneg
  rw [h1, roundHalfEven_intCast]
  show toString (k * 100 / 100) ++ "." ++ pad2 (k * 100 % 100) =
    toString k ++ ".00"
  rw [Int.mul_ediv_cancel k (by norm_num : (100 : Int) ≠ 0),
    Int.mul_emod_left k 100]
  apply String.ext
  simp [String.data_append, List.append_assoc]
  rfl

/-- Printing a negative integer prefixes a minus sign. -/
theorem toString_int_neg (n : Int) (h : n < 0) :
    toString n = "-" ++ toString (-n) := by
  cases n with
  | ofNat m => exact absurd h (not_lt.mpr (Int.ofNat_nonneg m))
  | negSucc m =>
      rw [Int.neg_negSucc]
      rfl

/-- Two-decimal formatting of any integral value. -/
theorem formatFixed2_intCast (n : Int) :
    formatFixed2 (n : ℚ) = toString n ++ ".00" := by
  unfold formatFixed2
  split_ifs with h
  · have hn : n < 0 := by exact_mod_cast h
    have h2 : (-(n : ℚ)) = ((-n : Int) : ℚ) := by push_cast; ring
    rw [h2, formatFixed2Nonneg_intCast, toString_int_neg n hn]
    apply String.ext
    simp [String.data_append, List.append_assoc]
  · exact formatFixed2Nonneg_intCast n

/-- C9: a bare value sequence is normalized by converting every value to
float (with stringified-index labels); a float with integral value renders
with exactly two decimal places (" 5.00" style), while an int value (as
supplied via a mapping or pair list) renders as a plain integer. -/
theorem seq_values_float_formatting :
    (∀ vs : List PyVal,
      normalizeItems (.seq (vs.map PyElem.num)) = .ok (bareExpected 0 vs)) ∧
    (∀ (i : Nat) (vs : List PyVal), ∀ it ∈ bareExpected i vs,
      ∃ l q, it = PyElem.pair l (PyVal.float q)) ∧
    (∀ n : Int,
      valueText true (PyVal.float (n : ℚ)) = " " ++ toString n ++ ".00") ∧
    (∀ n : Int, valueText true (PyVal.int n) = " " ++ toString n) := by
  refine ⟨fun vs => bareBranchAux_map_num 0 vs, bareExpected_all_pairs,
    fun n => ?_, fun n => rfl⟩
  show " " ++ formatFixed2 (n : ℚ) = " " ++ toString n ++ ".00"
  rw [formatFixed2_intCast]
  apply String.ext
  simp [String.data_append, List.append_assoc]

/-- Witness for `seq_values_float_formatting`. -/
theorem seq_values_float_formatting_witness :
    normalizeItems (.seq ([PyVal.int 5].map PyElem.num)) =
      .ok (bareExpected 0 [PyVal.int 5]) ∧
    (∃ l q, PyElem.pair "0" (PyVal.float 5) = PyElem.pair l (PyVal.float q)) ∧
    valueText true (PyVal.float ((5 : Int) : ℚ)) =
      " " ++ toString (5 : Int) ++ ".00" ∧
    valueText true (PyVal.int 5) = " " ++ toString (5 : Int) :=
  ⟨seq_values_float_formatting.1 [PyVal.int 5],
    seq_values_float_formatting.2.1 0 [PyVal.int 5]
      (PyElem.pair "0" (PyVal.float 5)) (by decide),
    seq_values_float_formatting.2.2.1 5,
    seq_values_float_formatting.2.2.2 5⟩

/-- C10: the normalizer dispatches on the first element only — a non-empty
Python list with a tuple head is stored unchanged whatever the remaining
elements are; a list with a non-tuple head (or empty), and any non-list
sequence (even one made of pairs), goes through the bare-value branch, which
float-converts each element under stringified-index labels. -/
theorem normalizer_first_element_dispatch :
    (∀ (l : String) (v : PyVal) (rest : List PyElem),
      normalizeItems (.pylist (PyElem.pair l v :: rest)) =
        .ok (PyElem.pair l v :: rest)) ∧
    (∀ (v : PyVal) (rest : List PyElem),
      normalizeItems (.pylist (PyElem.num v :: rest)) =
        bareBranch (PyElem.num v :: rest)) ∧
    normalizeItems (.pylist []) = bareBranch [] ∧
    (∀ elems : List PyElem,
      normalizeItems (.seq elems) = bareBranch elems) ∧
    (∀ vs : List PyVal,
      bareBranch (vs.map PyElem.num) = .ok (bareExpected 0 vs)) :=
  ⟨fun _ _ _ => rfl, fun _ _ => rfl, rfl, fun _ => rfl,
    fun vs => bareBranchAux_map_num 0 vs⟩
